import Mathlib

/-!
Shallow embedding of the bonus computation pipeline
(`src/lib/bonus-calculator.ts`, `src/lib/excel.ts`,
`src/app/api/process/route.ts`) and proofs about it.

JavaScript numbers are modelled as rationals (`ℚ`); `Math.round` is
`jsRound` below (round half toward positive infinity, the JS rule).
`new Date()` inside a run is modelled as an explicit `now : JSDate`
parameter threaded through the computation: every call of `new Date()`
during one processing run reads this run clock.
-/

namespace Bonus

/-- JavaScript `Math.round`: rounds half toward positive infinity. -/
def jsRound (q : ℚ) : ℤ := ⌊q + 1/2⌋

/-- The accessors of a JavaScript `Date` that the code uses:
`getFullYear`, `getMonth` (0-based), `getTime` (milliseconds), and
whether the date is valid (`!isNaN(d.getTime())`). -/
structure JSDate where
  year : ℤ
  month : ℤ
  time : ℚ
  valid : Bool
deriving DecidableEq, Repr

/-- Structure `MonthlyData` from `src/lib/types.ts`. -/
structure MonthlyData where
  month : String
  salary : ℚ
  department : Option String
deriving DecidableEq, Repr

/-- Structure `Employee` from `src/lib/types.ts` (the fields the calculator reads). -/
structure Employee where
  empId : String
  name : String
  department : String
  doj : JSDate
  salary : ℚ
  monthlyData : Option (List MonthlyData)
  isCashSalary : Option Bool
deriving DecidableEq, Repr

/-- Due-voucher map entry (`{ alreadyPaid, unpaid, dept }`). -/
structure DueVoucher where
  alreadyPaid : ℚ
  unpaid : ℚ
  dept : String
deriving DecidableEq, Repr

/-- ASCII uppercase of one character (JS `toUpperCase` on the ASCII
range, which covers every string the code inspects). -/
def charUpper (c : Char) : Char :=
  if 'a' ≤ c ∧ c ≤ 'z' then Char.ofNat (c.toNat - 32) else c

/-- ASCII lowercase of one character (JS `toLowerCase`). -/
def charLower (c : Char) : Char :=
  if 'A' ≤ c ∧ c ≤ 'Z' then Char.ofNat (c.toNat + 32) else c

/-- JS `s.toUpperCase()`. -/
def upperStr (s : String) : String := ⟨s.data.map charUpper⟩

/-- JS `s.toLowerCase()`. -/
def lowerStr (s : String) : String := ⟨s.data.map charLower⟩

/-- JS `s.substring(0, n)`. -/
def takeStr (s : String) (n : Nat) : String := ⟨s.data.take n⟩

/-- JS `s.split(sep)[0]` for a one-character separator: the characters
before the first occurrence (the whole string if none). -/
def takeWhileStr (s : String) (p : Char → Bool) : String := ⟨s.data.takeWhile p⟩

/-- Whitespace for JS `trim`. -/
def isWsChar (c : Char) : Bool := c = ' ' ∨ c = '\t' ∨ c = '\n' ∨ c = '\r'

/-- JS `s.trim()`. -/
def trimStr (s : String) : String :=
  ⟨(((s.data.dropWhile isWsChar).reverse).dropWhile isWsChar).reverse⟩

/-- JS `s.startsWith(p)`. -/
def startsWithStr (s p : String) : Bool := p.data.isPrefixOf s.data

/-- The `monthMapping` table of `extractMonthlySalaries`
(NOV..SEP mapped to indices 0..10); a name outside the table is
`undefined`. -/
def monthMapping (m : String) : Option Nat :=
  if m = "NOV" then some 0
  else if m = "DEC" then some 1
  else if m = "JAN" then some 2
  else if m = "FEB" then some 3
  else if m = "MAR" then some 4
  else if m = "APR" then some 5
  else if m = "MAY" then some 6
  else if m = "JUN" then some 7
  else if m = "JUL" then some 8
  else if m = "AUG" then some 9
  else if m = "SEP" then some 10
  else none

/-- Computes `data.month.split("-")[0].toUpperCase().substring(0, 3)` followed by
the `monthMapping` lookup. -/
def monthIdx (month : String) : Option Nat :=
  monthMapping (takeStr (upperStr (takeWhileStr month (fun c => c ≠ '-'))) 3)

/-- Models `BonusCalculator.extractMonthlySalaries`: an 11-slot array (NOV..SEP),
initially all `null`; for each timeline record whose month name maps to a
slot and whose salary is positive, the slot is overwritten with that
salary. -/
def extractMonthlySalaries (monthlyData : List MonthlyData) : List (Option ℚ) :=
  monthlyData.foldl
    (fun (result : List (Option ℚ)) (data : MonthlyData) =>
      match monthIdx data.month with
      | some index => if data.salary > 0 then result.set index (some data.salary) else result
      | none => result)
    (List.replicate 11 (none : Option ℚ))

/-- Models `BonusCalculator.calculateOctSalary`: gate on the AUG slot (index 9);
if it is absent, zero or below 1, return 0; otherwise average the
DEC..AUG slots (indices 1..9) that are present and strictly greater
than 1, rounding the mean; 0 when no slot qualifies. -/
def calculateOctSalary (monthlySalaries : List (Option ℚ)) : ℚ :=
  match (monthlySalaries.get? 9).bind id with
  | none => 0
  | some augSalary =>
    if augSalary < 1 then 0
    else
      let validSalaries :=
        (((monthlySalaries.drop 1).take 9).filterMap id).filter (fun s => 1 < s)
      if validSalaries.length = 0 then 0
      else (jsRound (validSalaries.sum / validSalaries.length) : ℚ)

/-- Models `BonusCalculator.calculateServiceMonths`: whole calendar months
between joining date and the run clock, clamped to be nonnegative. -/
def calculateServiceMonths (now : JSDate) (doj : JSDate) : ℤ :=
  max 0 ((now.year - doj.year) * 12 + (now.month - doj.month))

/-- The years-of-service figure of `calculateBonusPercentage`:
`(now.getTime() - doj.getTime()) / (1000*60*60*24*365.25)`. -/
def yearsOfService (now : JSDate) (doj : JSDate) : ℚ :=
  (now.time - doj.time) / (1000 * 60 * 60 * 24 * (365.25 : ℚ))

/-- The service-duration tier of `calculateBonusPercentage`:
under a year 10, one to two years 12, otherwise 8.33. -/
def serviceTier (now : JSDate) (doj : JSDate) : ℚ :=
  if yearsOfService now doj < 1 then 10
  else if yearsOfService now doj ≥ 1 ∧ yearsOfService now doj < 2 then 12
  else (8.33 : ℚ)

/-- The `isWorker` test of `calculateBonusPercentage`:
`department === "W" || department === "M" || department === "A" ||
department === "C" || department?.startsWith("Sci Prec") === false`
(the last disjunct is false when `department` is `undefined`). -/
def isWorkerDept (department : Option String) : Bool :=
  department == some "W" || department == some "M" ||
  department == some "A" || department == some "C" ||
  (department.map (fun d => startsWithStr d "Sci Prec")) == some false

/-- The fixed exception list `customExceptions = ["143", "914"]`. -/
def customExceptions : List String := ["143", "914"]

/-- Models `BonusCalculator.calculateBonusPercentage`: workers (minus the
exception ids) get 8.33; otherwise a custom percentage from the map when
present, else the service tier. -/
def calculateBonusPercentage (now : JSDate) (empId : String) (doj : JSDate)
    (percentageMap : String → Option ℚ) (department : Option String) : ℚ :=
  if isWorkerDept department && !(customExceptions.contains empId) then (8.33 : ℚ)
  else
    match percentageMap empId with
    | some customPercent => customPercent
    | none => serviceTier now doj

/-- Models `BonusCalculator.calculateGross2`. -/
def calculateGross2 (totalGrossSalary : ℚ) (bonusPercent : ℚ) : ℚ :=
  if bonusPercent = (8.33 : ℚ) then totalGrossSalary
  else if bonusPercent > (8.33 : ℚ) then totalGrossSalary * (0.6 : ℚ)
  else 0

/-- Models `BonusCalculator.isEligible`. -/
def isEligible (department : String) (serviceMonths : ℤ) : Bool :=
  if department == "S" || startsWithStr department "Sci Prec" || department == "NRTM" then
    true
  else if department == "W" || department == "M" then
    serviceMonths ≥ 6
  else
    true

/-- Structure `BonusCalculation` from `src/lib/types.ts` (rounded monetary fields
are integers, produced by `jsRound`). -/
structure BonusCalculation where
  empId : String
  name : String
  department : String
  doj : JSDate
  serviceMonths : ℤ
  monthlySalaries : List (Option ℚ)
  octSalary : ℚ
  totalGrossSalary : ℤ
  gross2 : ℤ
  register : ℤ
  alreadyPaid : ℤ
  unpaid : ℤ
  isEligible : Bool
  afterV : ℤ
  bonusPercent : ℚ
  actual : ℤ
  reim : ℤ
  loan : ℤ
  finalRTGS : ℤ
  isCashSalary : Bool
  calculatedBonus : ℤ
  finalBonus : ℤ
  serviceMultiplier : ℚ
  monthlyData : List MonthlyData
deriving DecidableEq, Repr

/-- Evaluates `emp.monthlyData || []`. -/
def monthlyDataOf (emp : Employee) : List MonthlyData := emp.monthlyData.getD []

/-- Evaluates `emp.isCashSalary || false`. -/
def isCashOf (emp : Employee) : Bool := emp.isCashSalary.getD false

/-- The per-employee `monthlySalaries` value. -/
def monthlySalariesOf (emp : Employee) : List (Option ℚ) :=
  extractMonthlySalaries (monthlyDataOf emp)

/-- The per-employee estimated OCT salary. -/
def octSalaryOf (emp : Employee) : ℚ := calculateOctSalary (monthlySalariesOf emp)

/-- Field `totalGrossSalary`: sum of the non-null monthly slots plus the OCT
estimate (which is never null). -/
def totalGrossOf (emp : Employee) : ℚ :=
  ((monthlySalariesOf emp).filterMap id).sum + octSalaryOf emp

/-- The per-employee resolved bonus percentage (the calculator passes
`emp.department`, a string, for the optional parameter). -/
def bonusPercentOf (now : JSDate) (percentageMap : String → Option ℚ)
    (emp : Employee) : ℚ :=
  calculateBonusPercentage now emp.empId emp.doj percentageMap (some emp.department)

/-- The per-employee raw (pre-rounding) `gross2`. -/
def gross2Of (now : JSDate) (percentageMap : String → Option ℚ) (emp : Employee) : ℚ :=
  calculateGross2 (totalGrossOf emp) (bonusPercentOf now percentageMap emp)

/-- Raw `register`: 0 for cash salary, else
`Math.round((gross2 * 8.33) / 100)`. -/
def registerRawOf (now : JSDate) (percentageMap : String → Option ℚ)
    (emp : Employee) : ℚ :=
  if isCashOf emp then 0
  else (jsRound (gross2Of now percentageMap emp * (8.33 : ℚ) / 100) : ℚ)

/-- Raw `alreadyPaid`: 0 for cash salary, else
`dueVoucherData?.alreadyPaid || 0`. -/
def alreadyPaidRawOf (dueVoucherMap : String → Option DueVoucher) (emp : Employee) : ℚ :=
  if isCashOf emp then 0 else ((dueVoucherMap emp.empId).map (fun d => d.alreadyPaid)).getD 0

/-- Raw `unpaid`: 0 for cash salary, else `dueVoucherData?.unpaid || 0`. -/
def unpaidRawOf (dueVoucherMap : String → Option DueVoucher) (emp : Employee) : ℚ :=
  if isCashOf emp then 0 else ((dueVoucherMap emp.empId).map (fun d => d.unpaid)).getD 0

/-- Raw `afterV = register - (alreadyPaid + unpaid)`. -/
def afterVRawOf (now : JSDate) (dueVoucherMap : String → Option DueVoucher)
    (percentageMap : String → Option ℚ) (emp : Employee) : ℚ :=
  registerRawOf now percentageMap emp -
    (alreadyPaidRawOf dueVoucherMap emp + unpaidRawOf dueVoucherMap emp)

/-- Raw `actual = isEligible ? afterV : 0`. -/
def actualRawOf (now : JSDate) (dueVoucherMap : String → Option DueVoucher)
    (percentageMap : String → Option ℚ) (emp : Employee) : ℚ :=
  if isEligible emp.department (calculateServiceMonths now emp.doj) then
    afterVRawOf now dueVoucherMap percentageMap emp
  else 0

/-- Raw `loanAmount = loanMap?.get(emp.empId) || 0`. -/
def loanRawOf (loanMap : String → Option ℚ) (emp : Employee) : ℚ :=
  (loanMap emp.empId).getD 0

/-- Raw `finalRTGS = register - (alreadyPaid + unpaid)`. -/
def finalRTGSRawOf (now : JSDate) (dueVoucherMap : String → Option DueVoucher)
    (percentageMap : String → Option ℚ) (emp : Employee) : ℚ :=
  registerRawOf now percentageMap emp -
    (alreadyPaidRawOf dueVoucherMap emp + unpaidRawOf dueVoucherMap emp)

/-- The record built for one employee inside
`BonusCalculator.calculateBonus`. -/
def calcOne (now : JSDate) (dueVoucherMap : String → Option DueVoucher)
    (loanMap : String → Option ℚ) (percentageMap : String → Option ℚ)
    (emp : Employee) : BonusCalculation :=
  { empId := emp.empId
    name := emp.name
    department := emp.department
    doj := emp.doj
    serviceMonths := calculateServiceMonths now emp.doj
    monthlySalaries := monthlySalariesOf emp
    octSalary := octSalaryOf emp
    totalGrossSalary := jsRound (totalGrossOf emp)
    gross2 := jsRound (gross2Of now percentageMap emp)
    register := jsRound (registerRawOf now percentageMap emp)
    alreadyPaid := jsRound (alreadyPaidRawOf dueVoucherMap emp)
    unpaid := jsRound (unpaidRawOf dueVoucherMap emp)
    isEligible := isEligible emp.department (calculateServiceMonths now emp.doj)
    afterV := jsRound (afterVRawOf now dueVoucherMap percentageMap emp)
    bonusPercent := bonusPercentOf now percentageMap emp
    actual := jsRound (actualRawOf now dueVoucherMap percentageMap emp)
    reim := jsRound (afterVRawOf now dueVoucherMap percentageMap emp -
      actualRawOf now dueVoucherMap percentageMap emp)
    loan := jsRound (loanRawOf loanMap emp)
    finalRTGS := jsRound (finalRTGSRawOf now dueVoucherMap percentageMap emp)
    isCashSalary := isCashOf emp
    calculatedBonus := jsRound (registerRawOf now percentageMap emp)
    finalBonus := jsRound (finalRTGSRawOf now dueVoucherMap percentageMap emp)
    serviceMultiplier :=
      if calculateServiceMonths now emp.doj ≥ 12 then 1
      else (calculateServiceMonths now emp.doj : ℚ) / 12
    monthlyData := monthlyDataOf emp }

/-- Models `BonusCalculator.calculateBonus`: filter out employees with an
invalid joining date, then build one record per remaining employee. -/
def calculateBonus (now : JSDate) (employees : List Employee)
    (dueVoucherMap : String → Option DueVoucher) (loanMap : String → Option ℚ)
    (percentageMap : String → Option ℚ) : List BonusCalculation :=
  (employees.filter (fun e => e.doj.valid)).map
    (calcOne now dueVoucherMap loanMap percentageMap)

/-! ## Reconciliation against the HR ledger (`src/app/api/process/route.ts`) -/

/-- The fields of one HR-ledger entry that the comparison reads
(produced by `ExcelProcessor.parseHRComparisonFile`). -/
structure HrData where
  bonus : ℚ
  grossSal : ℚ
  gross02 : ℚ
  register : ℚ
  actual : ℚ
  unpaid : ℚ
  reim : ℚ
deriving DecidableEq, Repr

/-- The status enum of a comparison row. -/
inductive CompStatus where
  | MATCH
  | MISMATCH
  | MISSING
deriving DecidableEq, Repr

/-- The seven signed per-field differences of a comparison row. -/
structure CompDiffs where
  grossSalDiff : ℚ
  gross02Diff : ℚ
  registerDiff : ℚ
  actualDiff : ℚ
  unPaidDiff : ℚ
  finalRTGSDiff : ℚ
  reimDiff : ℚ
deriving DecidableEq, Repr

/-- One entry of `comparisonResults` (identity, differences, status,
source; the verbatim `hrData`/`systemData` copies of the inputs are not
repeated here). -/
structure Comparison where
  empId : String
  name : String
  department : String
  differences : CompDiffs
  status : CompStatus
  sourceBoth : Bool
deriving DecidableEq, Repr

/-- Evaluates `x || 0` on an optional HR field. -/
def hrGetD (o : Option ℚ) : ℚ := o.getD 0

/-- The comparison row the `process` route builds for one computed
employee: differences are `system − hr` (missing HR fields default to
0), and the status is `MISSING` without an HR entry, else `MATCH`
exactly when all seven absolute differences are at most 1. -/
def mkComparison (c : BonusCalculation) (hrData : Option HrData) : Comparison :=
  { empId := c.empId
    name := c.name
    department := c.department
    differences :=
      { grossSalDiff := (c.totalGrossSalary : ℚ) - hrGetD (hrData.map (fun h => h.grossSal))
        gross02Diff := (c.gross2 : ℚ) - hrGetD (hrData.map (fun h => h.gross02))
        registerDiff := (c.register : ℚ) - hrGetD (hrData.map (fun h => h.register))
        actualDiff := (c.actual : ℚ) - hrGetD (hrData.map (fun h => h.actual))
        unPaidDiff := (c.unpaid : ℚ) - hrGetD (hrData.map (fun h => h.unpaid))
        finalRTGSDiff := (c.finalRTGS : ℚ) - hrGetD (hrData.map (fun h => h.bonus))
        reimDiff := (c.reim : ℚ) - hrGetD (hrData.map (fun h => h.reim)) }
    status :=
      match hrData with
      | none => CompStatus.MISSING
      | some hr =>
        let allDiffs : List ℚ :=
          [|(c.totalGrossSalary : ℚ) - hr.grossSal|,
           |(c.gross2 : ℚ) - hr.gross02|,
           |(c.register : ℚ) - hr.register|,
           |(c.actual : ℚ) - hr.actual|,
           |(c.unpaid : ℚ) - hr.unpaid|,
           |(c.finalRTGS : ℚ) - hr.bonus|,
           |(c.reim : ℚ) - hr.reim|]
        if allDiffs.all (fun diff => diff ≤ 1) then CompStatus.MATCH
        else CompStatus.MISMATCH
    sourceBoth := hrData.isSome }

/-- Models `comparisonResults = bonusCalculations.map(...)`: one row per
system computation, looked up in the HR map by employee id. -/
def comparisonResults (bonusCalculations : List BonusCalculation)
    (hrBonusMap : String → Option HrData) : List Comparison :=
  bonusCalculations.map (fun c => mkComparison c (hrBonusMap c.empId))

/-! ## Sheet-row normalization (`src/lib/excel.ts`) -/

/-- Value `new Date("2020-01-01")`, the placeholder joining date assigned to
sentinel ("N") rows. -/
def defaultNDate : JSDate :=
  { year := 2020, month := 0, time := 1577836800000, valid := true }

/-- A cell value rendered as `cell.value?.toString().trim()`:
`none` when the cell value is null/undefined. -/
abbrev CellStr := Option String

/-- JavaScript falsiness of such a cell string (undefined or empty). -/
def jsFalsyStr (s : CellStr) : Bool := s == none || s == some ""

/-- Evaluates `String(x)` on a raw cell value: null/undefined stringify to a
literal ("null"/"undefined") that in particular is never "N". -/
def strOfCell (o : Option String) : String := o.getD "null"

/-- One staff-sheet data row, carrying the cell values
`parseStaffFile` reads: id (col 2), department (col 3), name (col 5),
salary (col 15, via `toNumber`), the raw joining-date text (col 33) and
the joining date as `parseDate`/`instanceof Date` resolves it. -/
structure StaffRow where
  empId : CellStr
  dept : CellStr
  name : CellStr
  salary : ℚ
  dojRaw : Option String
  dojParsed : Option JSDate
deriving DecidableEq, Repr

/-- One worker-sheet data row (`parseWorkerFile`): id (col 2),
department (col 3), name (col 4), salary (col 9), cash-salary marker
(col 14), joining date (col 26). -/
structure WorkerRow where
  empId : CellStr
  dept : CellStr
  name : CellStr
  salary : ℚ
  cashSalary : CellStr
  dojRaw : Option String
  dojParsed : Option JSDate
deriving DecidableEq, Repr

/-- Insertion-ordered employee map (JS `Map` keeps insertion order and
`Array.from(map.values())` reads it back in that order). -/
abbrev EmployeeMap := List (String × Employee)

/-- Evaluates `employeeMap.get(k)`. -/
def getEntry (m : EmployeeMap) (k : String) : Option Employee :=
  (m.find? (fun p => p.1 = k)).map (fun p => p.2)

/-- In-place mutation of the employee stored under `k` (JS objects are
held by reference, so mutating the fetched employee updates the map). -/
def updateEntry (m : EmployeeMap) (k : String) (f : Employee → Employee) : EmployeeMap :=
  m.map (fun p => if p.1 = k then (p.1, f p.2) else p)

/-- The `isNValue` sentinel test both parsers apply to a row:
the joining-date text is "N", or the id is "N", or the id starts
with "N" (after trimming and uppercasing). -/
def isNValueOf (empId dojRaw : Option String) : Bool :=
  upperStr (trimStr (dojRaw.getD "")) == "N" ||
  upperStr (empId.getD "") == "N" ||
  startsWithStr (upperStr (empId.getD "")) "N"

/-- The `isNotApplicable` test: joining-date text is an N/A variant or
empty. -/
def isNotApplicableOf (dojRaw : Option String) : Bool :=
  upperStr (trimStr (dojRaw.getD "")) == "NA" ||
  upperStr (trimStr (dojRaw.getD "")) == "N.A" ||
  upperStr (trimStr (dojRaw.getD "")) == "N.A." ||
  upperStr (trimStr (dojRaw.getD "")) == "N/A" ||
  upperStr (trimStr (dojRaw.getD "")) == ""

/-- The narrower condition both parsers use for the month-scoped and
final department: the id is exactly "N" (case-sensitively) or
`String(dojRaw)` trims and uppercases to "N". -/
def rowDeptIsN (empId dojRaw : Option String) : Bool :=
  empId == some "N" || upperStr (trimStr (strOfCell dojRaw)) == "N"

/-- The aggregation key both parsers compute: "N_" + name when the id
itself is "N" (case-insensitively), otherwise the id. -/
def sentinelKey (empId name : String) : String :=
  if empId = "N" ∨ upperStr empId = "N" then "N_" ++ name else empId

/-- Processing of one staff data row (the body of the `eachRow` callback
of `parseStaffFile`, after the `rowNumber <= 3` header guard):
N/A joining dates skip the row unless it is a sentinel; sentinel rows
get the placeholder date; missing id/name, id "0", name "total" and
(non-sentinel) zero salary skip; otherwise the row is merged into the
employee map under `"N_" + name` for an id that is itself "N", else
under the id. -/
def staffStep (monthKey : String) (employeeMap : EmployeeMap) (row : StaffRow) :
    EmployeeMap :=
  let dept := match row.dept with
    | some d => if d = "" then "S" else d
    | none => "S"
  let isNValue := isNValueOf row.empId row.dojRaw
  if isNotApplicableOf row.dojRaw && !isNValue then employeeMap
  else
    let dojResolved : Option JSDate :=
      if isNValue then some defaultNDate
      else match row.dojParsed with
        | some d => if d.valid then some d else none
        | none => none
    match dojResolved with
    | none => employeeMap
    | some doj =>
      if jsFalsyStr row.empId || row.empId == some "0" || jsFalsyStr row.name ||
          lowerStr (row.name.getD "") == "total" then employeeMap
      else if !isNValue && row.salary == 0 then employeeMap
      else
        let empId := row.empId.getD ""
        let name := row.name.getD ""
        let mapKey := sentinelKey empId name
        let m1 :=
          if (getEntry employeeMap mapKey).isSome then employeeMap
          else employeeMap ++ [(mapKey,
            { empId := empId, name := name,
              department := if isNValue then "N" else dept,
              doj := doj, salary := 0, monthlyData := some [],
              isCashSalary := none })]
        let currentDeptIsN := rowDeptIsN row.empId row.dojRaw
        let m2 :=
          if isNValue || row.salary > 0 then
            updateEntry m1 mapKey (fun e =>
              { e with monthlyData := some ((e.monthlyData.getD []) ++
                  [{ month := monthKey, salary := row.salary,
                     department := some (if currentDeptIsN then "N" else dept) }]) })
          else m1
        updateEntry m2 mapKey (fun e =>
          { e with department := if currentDeptIsN then "N" else dept })

/-- The data rows of one matching staff sheet, folded through
`staffStep` (the sheet's normalized month key is `monthKey`). -/
def parseStaffSheetRows (monthKey : String) (rows : List StaffRow) : EmployeeMap :=
  rows.foldl (staffStep monthKey) []

/-- Processing of one worker data row (the body of the `eachRow`
callback of `parseWorkerFile`, after the `rowNumber <= 2` header guard).
Differences from the staff path: default department "W", an extra
id-"total" skip, nonpositive (not just zero) salaries skip, and the
cash-salary flag is latched to true when any month carries a marker. -/
def workerStep (monthKey : String) (employeeMap : EmployeeMap) (row : WorkerRow) :
    EmployeeMap :=
  let dept := match row.dept with
    | some d => if d = "" then "W" else d
    | none => "W"
  let isNValue := isNValueOf row.empId row.dojRaw
  if isNotApplicableOf row.dojRaw && !isNValue then employeeMap
  else
    let dojResolved : Option JSDate :=
      if isNValue then some defaultNDate
      else match row.dojParsed with
        | some d => if d.valid then some d else none
        | none => none
    match dojResolved with
    | none => employeeMap
    | some doj =>
      let isCashSalary := ((row.cashSalary.getD "").length > 0 : Bool)
      if jsFalsyStr row.empId || row.empId == some "0" || jsFalsyStr row.name ||
          lowerStr (row.name.getD "") == "total" ||
          lowerStr (row.empId.getD "") == "total" then employeeMap
      else if !isNValue && row.salary ≤ 0 then employeeMap
      else
        let empId := row.empId.getD ""
        let name := row.name.getD ""
        let mapKey := sentinelKey empId name
        let m1 :=
          if (getEntry employeeMap mapKey).isSome then employeeMap
          else employeeMap ++ [(mapKey,
            { empId := empId, name := name,
              department := if isNValue then "N" else dept,
              doj := doj, salary := 0, monthlyData := some [],
              isCashSalary := some false })]
        let m2 :=
          if isCashSalary then
            updateEntry m1 mapKey (fun e => { e with isCashSalary := some true })
          else m1
        let currentDeptIsN := rowDeptIsN row.empId row.dojRaw
        let m3 :=
          if isNValue || row.salary > 0 then
            updateEntry m2 mapKey (fun e =>
              { e with monthlyData := some ((e.monthlyData.getD []) ++
                  [{ month := monthKey, salary := row.salary,
                     department := some (if currentDeptIsN then "N" else dept) }]) })
          else m2
        updateEntry m3 mapKey (fun e =>
          { e with department := if currentDeptIsN then "N" else dept })

/-- The data rows of one matching worker sheet, folded through
`workerStep`. -/
def parseWorkerSheetRows (monthKey : String) (rows : List WorkerRow) : EmployeeMap :=
  rows.foldl (workerStep monthKey) []

/-! ## Helper lemmas -/

/-- Rounding an integer value changes nothing. -/
theorem jsRound_intCast (n : ℤ) : jsRound (n : ℚ) = n := by
  unfold jsRound
  rw [Int.floor_int_add]
  norm_num

/-- Updating under a key leaves the key list unchanged. -/
theorem updateEntry_keys (m : EmployeeMap) (k : String) (f : Employee → Employee) :
    (updateEntry m k f).map Prod.fst = m.map Prod.fst := by
  unfold updateEntry
  rw [List.map_map]
  apply List.map_congr_left
  intro p _
  by_cases h : p.1 = k <;> simp [h]

/-- Lookup under the updated key maps the stored employee. -/
theorem getEntry_updateEntry (m : EmployeeMap) (k : String) (f : Employee → Employee) :
    getEntry (updateEntry m k f) k = (getEntry m k).map f := by
  induction m with
  | nil => rfl
  | cons p t ih =>
    by_cases h : p.1 = k
    · simp [updateEntry, getEntry, List.find?_cons, h]
    · simp only [updateEntry, List.map_cons, if_neg h] at *
      simp only [getEntry, List.find?_cons] at *
      have hd : (decide (p.1 = k)) = false := decide_eq_false h
      simp only [hd]
      exact ih

/-- Lookup after appending one entry at the back: an existing binding
wins, otherwise the appended employee is found. -/
theorem getEntry_append_single (m : EmployeeMap) (k : String) (e : Employee) :
    getEntry (m ++ [(k, e)]) k = some ((getEntry m k).getD e) := by
  induction m with
  | nil => simp [getEntry]
  | cons p t ih =>
    by_cases h : p.1 = k
    · simp [getEntry, List.find?_cons, h]
    · have hd : (decide (p.1 = k)) = false := decide_eq_false h
      simp only [getEntry, List.cons_append, List.find?_cons, hd] at *
      exact ih

/-- A key is bound exactly when it occurs in the key list. -/
theorem getEntry_ne_none_iff (m : EmployeeMap) (k : String) :
    getEntry m k ≠ none ↔ k ∈ m.map Prod.fst := by
  induction m with
  | nil => simp [getEntry]
  | cons p t ih =>
    by_cases h : p.1 = k
    · simp [getEntry, List.find?_cons, h]
    · have hd : (decide (p.1 = k)) = false := decide_eq_false h
      simp only [getEntry, List.find?_cons, hd, List.map_cons, List.mem_cons] at *
      rw [ih]
      constructor
      · exact Or.inr
      · rintro (hk | hk)
        · exact absurd hk.symm h
        · exact hk

/-- Keys present before a staff row is processed are still present
afterwards: entries are only inserted or updated, never removed. -/
theorem staffStep_keys_mono (monthKey : String) (m : EmployeeMap) (row : StaffRow)
    (k : String) (hk : k ∈ m.map Prod.fst) :
    k ∈ (staffStep monthKey m row).map Prod.fst := by
  dsimp only [staffStep]
  repeat' split
  all_goals simp [updateEntry_keys, List.map_append, List.mem_append, hk]

/-- Keys survive processing any further staff rows. -/
theorem staffFold_keys_mono (monthKey : String) (m : EmployeeMap)
    (rows : List StaffRow) (k : String) (hk : k ∈ m.map Prod.fst) :
    k ∈ (rows.foldl (staffStep monthKey) m).map Prod.fst := by
  induction rows generalizing m with
  | nil => exact hk
  | cons r rs ih => exact ih _ (staffStep_keys_mono monthKey m r k hk)

/-- Keys present before a worker row is processed are still present
afterwards. -/
theorem workerStep_keys_mono (monthKey : String) (m : EmployeeMap) (row : WorkerRow)
    (k : String) (hk : k ∈ m.map Prod.fst) :
    k ∈ (workerStep monthKey m row).map Prod.fst := by
  dsimp only [workerStep]
  repeat' split
  all_goals simp [updateEntry_keys, List.map_append, List.mem_append, hk]

/-- Keys survive processing any further worker rows. -/
theorem workerFold_keys_mono (monthKey : String) (m : EmployeeMap)
    (rows : List WorkerRow) (k : String) (hk : k ∈ m.map Prod.fst) :
    k ∈ (rows.foldl (workerStep monthKey) m).map Prod.fst := by
  induction rows generalizing m with
  | nil => exact hk
  | cons r rs ih => exact ih _ (workerStep_keys_mono monthKey m r k hk)

/-- Processing a sentinel staff row (joining-date text "N" or id "N",
with id and name present, id not "0", name not "total") always binds the
row's key, and its department is "N" right after the row is processed. -/
theorem staffStep_sentinel (monthKey : String) (m : EmployeeMap) (row : StaffRow)
    (hNV : isNValueOf row.empId row.dojRaw = true)
    (hDN : rowDeptIsN row.empId row.dojRaw = true)
    (hid : jsFalsyStr row.empId = false)
    (hid0 : (row.empId == some "0") = false)
    (hname : jsFalsyStr row.name = false)
    (hnameT : (lowerStr (row.name.getD "") == "total") = false) :
    (getEntry (staffStep monthKey m row)
        (sentinelKey (row.empId.getD "") (row.name.getD ""))).map Employee.department
      = some "N" := by
  cases hpres : getEntry m (sentinelKey (row.empId.getD "") (row.name.getD "")) with
  | none =>
    simp [staffStep, hNV, hDN, hid, hid0, hname, hnameT, hpres,
      getEntry_updateEntry, getEntry_append_single]
  | some e =>
    simp [staffStep, hNV, hDN, hid, hid0, hname, hnameT, hpres,
      getEntry_updateEntry, getEntry_append_single]

/-- Processing a sentinel worker row (same side conditions, plus the
worker-only id-"total" exclusion) always binds the row's key with
department "N". -/
theorem workerStep_sentinel (monthKey : String) (m : EmployeeMap) (row : WorkerRow)
    (hNV : isNValueOf row.empId row.dojRaw = true)
    (hDN : rowDeptIsN row.empId row.dojRaw = true)
    (hid : jsFalsyStr row.empId = false)
    (hid0 : (row.empId == some "0") = false)
    (hname : jsFalsyStr row.name = false)
    (hnameT : (lowerStr (row.name.getD "") == "total") = false)
    (hidT : (lowerStr (row.empId.getD "") == "total") = false) :
    (getEntry (workerStep monthKey m row)
        (sentinelKey (row.empId.getD "") (row.name.getD ""))).map Employee.department
      = some "N" := by
  cases hpres : getEntry m (sentinelKey (row.empId.getD "") (row.name.getD "")) with
  | none =>
    simp only [workerStep, hNV, hDN, hid, hid0, hname, hnameT, hidT, hpres]
    simp [getEntry_updateEntry, getEntry_append_single, hpres]
    split <;> simp [getEntry_updateEntry, getEntry_append_single, hpres]
  | some e =>
    simp only [workerStep, hNV, hDN, hid, hid0, hname, hnameT, hidT, hpres]
    simp [getEntry_updateEntry, getEntry_append_single, hpres]
    split <;> simp [getEntry_updateEntry, getEntry_append_single, hpres]

/-- A row whose id is literally "N", or whose joining-date text trims
and uppercases to "N", passes the `isNValue` sentinel test. -/
theorem isNValueOf_of_scope (empId dojRaw : Option String)
    (h : empId = some "N" ∨ upperStr (trimStr (dojRaw.getD "")) = "N") :
    isNValueOf empId dojRaw = true := by
  unfold isNValueOf
  rcases h with h | h
  · subst h
    have hm : (upperStr ((some "N" : Option String).getD "") == "N") = true := by decide
    rw [hm]
    simp
  · have h1 : (upperStr (trimStr (dojRaw.getD "")) == "N") = true := beq_iff_eq.mpr h
    rw [h1]
    simp

/-- The same scope also makes the department-tagging condition hold. -/
theorem rowDeptIsN_of_scope (empId dojRaw : Option String)
    (h : empId = some "N" ∨ upperStr (trimStr (dojRaw.getD "")) = "N") :
    rowDeptIsN empId dojRaw = true := by
  unfold rowDeptIsN
  rcases h with h | h
  · subst h
    simp
  · cases dojRaw with
    | none =>
      exfalso
      have he : upperStr (trimStr ((none : Option String).getD "")) = "" := by decide
      rw [he] at h
      exact absurd h (by decide)
    | some sVal =>
      have h1 : (upperStr (trimStr (strOfCell (some sVal))) == "N") = true :=
        beq_iff_eq.mpr h
      rw [h1]
      simp

/-! ## Claims -/

/-- C6: the capped basis equals `totalGrossSalary` exactly when the
resolved bonus percentage equals 8.33, equals `0.6 * totalGrossSalary`
exactly when the percentage is greater than 8.33, and equals 0 when the
percentage is below 8.33. -/
theorem C6_gross2_cap (totalGrossSalary bonusPercent : ℚ) :
    (bonusPercent = (8.33 : ℚ) →
      calculateGross2 totalGrossSalary bonusPercent = totalGrossSalary) ∧
    (bonusPercent > (8.33 : ℚ) →
      calculateGross2 totalGrossSalary bonusPercent = (0.6 : ℚ) * totalGrossSalary) ∧
    (bonusPercent < (8.33 : ℚ) →
      calculateGross2 totalGrossSalary bonusPercent = 0) := by
  refine ⟨fun h => ?_, fun h => ?_, fun h => ?_⟩
  · simp [calculateGross2, h]
  · rw [calculateGross2, if_neg (by linarith), if_pos h, mul_comm]
  · rw [calculateGross2, if_neg (by linarith), if_neg (by linarith)]

/-- Witness for C6 at a concrete above-minimum percentage. -/
theorem C6_gross2_cap_witness :
    calculateGross2 100 10 = (0.6 : ℚ) * 100 :=
  (C6_gross2_cap 100 10).2.1 (by norm_num)

/-- C2: a cash-salaried employee always has register, alreadyPaid and
unpaid equal to 0 no matter what the due-voucher map holds; a non-cash
employee's register is the rounding of `gross2 * 8.33 / 100`, with the
fixed statutory rate rather than the resolved percentage. -/
theorem C2_cash_zero_and_statutory_register (now : JSDate)
    (dueVoucherMap : String → Option DueVoucher)
    (loanMap percentageMap : String → Option ℚ) (emp : Employee) :
    (isCashOf emp = true →
      (calcOne now dueVoucherMap loanMap percentageMap emp).register = 0 ∧
      (calcOne now dueVoucherMap loanMap percentageMap emp).alreadyPaid = 0 ∧
      (calcOne now dueVoucherMap loanMap percentageMap emp).unpaid = 0) ∧
    (isCashOf emp = false →
      (calcOne now dueVoucherMap loanMap percentageMap emp).register =
        jsRound (gross2Of now percentageMap emp * (8.33 : ℚ) / 100)) := by
  constructor
  · intro h
    refine ⟨?_, ?_, ?_⟩ <;>
      simp [calcOne, registerRawOf, alreadyPaidRawOf, unpaidRawOf, h, jsRound] <;>
      norm_num
  · intro h
    simp [calcOne, registerRawOf, h, jsRound_intCast]

/-- Witness for C2: a cash employee with a nonzero due-voucher ledger
entry, and a non-cash employee. -/
theorem C2_cash_zero_and_statutory_register_witness :
    ((calcOne ⟨2025, 9, 1759276800000, true⟩ (fun _ => some ⟨500, 300, "W"⟩)
        (fun _ => none) (fun _ => none)
        ⟨"1", "A", "W", ⟨2020, 0, 1577836800000, true⟩, 0, some [], some true⟩).register = 0 ∧
      (calcOne ⟨2025, 9, 1759276800000, true⟩ (fun _ => some ⟨500, 300, "W"⟩)
        (fun _ => none) (fun _ => none)
        ⟨"1", "A", "W", ⟨2020, 0, 1577836800000, true⟩, 0, some [], some true⟩).alreadyPaid = 0 ∧
      (calcOne ⟨2025, 9, 1759276800000, true⟩ (fun _ => some ⟨500, 300, "W"⟩)
        (fun _ => none) (fun _ => none)
        ⟨"1", "A", "W", ⟨2020, 0, 1577836800000, true⟩, 0, some [], some true⟩).unpaid = 0) ∧
    (calcOne ⟨2025, 9, 1759276800000, true⟩ (fun _ => some ⟨500, 300, "W"⟩)
        (fun _ => none) (fun _ => none)
        ⟨"2", "B", "W", ⟨2020, 0, 1577836800000, true⟩, 0, some [], none⟩).register =
      jsRound (gross2Of ⟨2025, 9, 1759276800000, true⟩ (fun _ => none)
        ⟨"2", "B", "W", ⟨2020, 0, 1577836800000, true⟩, 0, some [], none⟩ * (8.33 : ℚ) / 100) :=
  ⟨(C2_cash_zero_and_statutory_register ⟨2025, 9, 1759276800000, true⟩
      (fun _ => some ⟨500, 300, "W"⟩) (fun _ => none) (fun _ => none)
      ⟨"1", "A", "W", ⟨2020, 0, 1577836800000, true⟩, 0, some [], some true⟩).1 rfl,
   (C2_cash_zero_and_statutory_register ⟨2025, 9, 1759276800000, true⟩
      (fun _ => some ⟨500, 300, "W"⟩) (fun _ => none) (fun _ => none)
      ⟨"2", "B", "W", ⟨2020, 0, 1577836800000, true⟩, 0, some [], none⟩).2 rfl⟩

/-- C7: the final payout equals register minus the sum of alreadyPaid and
unpaid, the loan amount is reported in its own field without being
subtracted (the payout does not depend on the loan map), and the final
payout always equals afterV. -/
theorem C7_final_payout_mirrors_afterV (now : JSDate)
    (dueVoucherMap : String → Option DueVoucher)
    (loanMap percentageMap : String → Option ℚ) (emp : Employee) :
    (calcOne now dueVoucherMap loanMap percentageMap emp).finalRTGS =
      jsRound (registerRawOf now percentageMap emp -
        (alreadyPaidRawOf dueVoucherMap emp + unpaidRawOf dueVoucherMap emp)) ∧
    (calcOne now dueVoucherMap loanMap percentageMap emp).finalRTGS =
      (calcOne now dueVoucherMap loanMap percentageMap emp).afterV ∧
    (calcOne now dueVoucherMap loanMap percentageMap emp).loan =
      jsRound (loanRawOf loanMap emp) ∧
    (∀ loanMapB : String → Option ℚ,
      (calcOne now dueVoucherMap loanMapB percentageMap emp).finalRTGS =
        (calcOne now dueVoucherMap loanMap percentageMap emp).finalRTGS) := by
  refine ⟨rfl, ?_, rfl, fun loanMapB => rfl⟩
  simp [calcOne, finalRTGSRawOf, afterVRawOf]

/-- C3: without an HR entry the status is MISSING; with one, the status
is MATCH exactly when all seven absolute field differences are at most
1, and MISMATCH exactly otherwise — so differences of exactly 1
everywhere still match, and a difference of 2 or more anywhere never
does. -/
theorem C3_tolerance_one (c : BonusCalculation) (hr : HrData) :
    (mkComparison c none).status = CompStatus.MISSING ∧
    ((mkComparison c (some hr)).status = CompStatus.MATCH ↔
      (|(c.totalGrossSalary : ℚ) - hr.grossSal| ≤ 1 ∧
       |(c.gross2 : ℚ) - hr.gross02| ≤ 1 ∧
       |(c.register : ℚ) - hr.register| ≤ 1 ∧
       |(c.actual : ℚ) - hr.actual| ≤ 1 ∧
       |(c.unpaid : ℚ) - hr.unpaid| ≤ 1 ∧
       |(c.finalRTGS : ℚ) - hr.bonus| ≤ 1 ∧
       |(c.reim : ℚ) - hr.reim| ≤ 1)) ∧
    ((mkComparison c (some hr)).status = CompStatus.MISMATCH ↔
      ¬(|(c.totalGrossSalary : ℚ) - hr.grossSal| ≤ 1 ∧
        |(c.gross2 : ℚ) - hr.gross02| ≤ 1 ∧
        |(c.register : ℚ) - hr.register| ≤ 1 ∧
        |(c.actual : ℚ) - hr.actual| ≤ 1 ∧
        |(c.unpaid : ℚ) - hr.unpaid| ≤ 1 ∧
        |(c.finalRTGS : ℚ) - hr.bonus| ≤ 1 ∧
        |(c.reim : ℚ) - hr.reim| ≤ 1)) := by
  refine ⟨rfl, ?_, ?_⟩ <;>
  · simp only [mkComparison, List.all_cons, List.all_nil, Bool.and_true,
      Bool.and_eq_true, decide_eq_true_eq]
    split <;> rename_i hcond <;> simp_all

/-- C10: reconciliation produces exactly one record per system
computation, every record's id is a system-computed id (an HR-only id
yields no record at all), and a MISSING status only ever arises for an
id absent from the HR map. -/
theorem C10_system_side_only (calcs : List BonusCalculation)
    (hrBonusMap : String → Option HrData) :
    (comparisonResults calcs hrBonusMap).length = calcs.length ∧
    (∀ rec ∈ comparisonResults calcs hrBonusMap, ∃ c ∈ calcs, rec.empId = c.empId) ∧
    (∀ rec ∈ comparisonResults calcs hrBonusMap,
      rec.status = CompStatus.MISSING → hrBonusMap rec.empId = none) := by
  refine ⟨List.length_map _ _, ?_, ?_⟩
  · intro rec hrec
    obtain ⟨c, hc, hrc⟩ := List.mem_map.mp hrec
    exact ⟨c, hc, by rw [← hrc]; rfl⟩
  · intro rec hrec hmiss
    obtain ⟨c, hc, hrc⟩ := List.mem_map.mp hrec
    have hid : rec.empId = c.empId := by rw [← hrc]; rfl
    rw [hid]
    cases hhr : hrBonusMap c.empId with
    | none => rfl
    | some hr =>
      rw [← hrc] at hmiss
      simp only [mkComparison, hhr] at hmiss
      split at hmiss <;> simp_all

/-- A concrete computation record used by witnesses. -/
def sampleCalc : BonusCalculation :=
  { empId := "1", name := "A", department := "W", doj := ⟨2020, 0, 1577836800000, true⟩,
    serviceMonths := 69, monthlySalaries := List.replicate 11 none, octSalary := 0,
    totalGrossSalary := 0, gross2 := 0, register := 0, alreadyPaid := 0, unpaid := 0,
    isEligible := true, afterV := 0, bonusPercent := (8.33 : ℚ), actual := 0, reim := 0,
    loan := 0, finalRTGS := 0, isCashSalary := false, calculatedBonus := 0,
    finalBonus := 0, serviceMultiplier := 1, monthlyData := [] }

/-- Witness for C10: a run with one system computation and an empty HR
map — its record's id is system-side and its MISSING status certifies
the id is absent from the HR map. -/
theorem C10_system_side_only_witness :
    (∃ c ∈ [sampleCalc], (mkComparison sampleCalc none).empId = c.empId) ∧
    (fun _ => (none : Option HrData)) (mkComparison sampleCalc none).empId = none :=
  ⟨(C10_system_side_only [sampleCalc] (fun _ => none)).2.1
      (mkComparison sampleCalc none) (by simp [comparisonResults]),
   (C10_system_side_only [sampleCalc] (fun _ => none)).2.2
      (mkComparison sampleCalc none) (by simp [comparisonResults]) rfl⟩

/-- C1 counterexample: employee id "7" has department "S" — a staff
category outside the fixed worker set {W, M, A, C} — and a custom
override of 15 in the percentage map, yet the code returns the statutory
8.33: the claimed override/tier path does not apply to plain staff
departments. -/
theorem C1_counterexample :
    calculateBonusPercentage ⟨2025, 9, 1759276800000, true⟩ "7"
        ⟨2024, 0, 1704067200000, true⟩
        (fun i => if i = "7" then some (15 : ℚ) else none) (some "S") = (8.33 : ℚ) ∧
      (8.33 : ℚ) ≠ 15 := by
  refine ⟨rfl, by norm_num⟩

/-- The resolution rule the code actually implements: only a department
starting with "Sci Prec" (or an absent department), or an id on the
fixed exception list, reaches the override/tier path; every other
department — staff categories like "S" and "NRTM" included — always
gets 8.33. -/
def amendedBonusPercentage (now : JSDate) (empId : String) (doj : JSDate)
    (percentageMap : String → Option ℚ) (department : Option String) : ℚ :=
  let onOverrideTierPath :=
    (match department with
     | some d => startsWithStr d "Sci Prec"
     | none => true) || customExceptions.contains empId
  if onOverrideTierPath then
    match percentageMap empId with
    | some customPercent => customPercent
    | none => serviceTier now doj
  else (8.33 : ℚ)

/-- C1 amended: the bonus percentage is resolved by the override/tier
priority exactly for departments that start with "Sci Prec" (or are
absent) and for the fixed exception ids; every other department always
gets 8.33. -/
theorem C1_amended_percentage_resolution (now : JSDate) (empId : String)
    (doj : JSDate) (percentageMap : String → Option ℚ)
    (department : Option String) :
    calculateBonusPercentage now empId doj percentageMap department =
      amendedBonusPercentage now empId doj percentageMap department := by
  cases department with
  | none =>
    simp [calculateBonusPercentage, amendedBonusPercentage, isWorkerDept]
  | some d =>
    have hiw : isWorkerDept (some d) = !(startsWithStr d "Sci Prec") := by
      cases hb : startsWithStr d "Sci Prec" with
      | true =>
        have h1 : d ≠ "W" := fun h => by subst h; exact absurd hb (by decide)
        have h2 : d ≠ "M" := fun h => by subst h; exact absurd hb (by decide)
        have h3 : d ≠ "A" := fun h => by subst h; exact absurd hb (by decide)
        have h4 : d ≠ "C" := fun h => by subst h; exact absurd hb (by decide)
        simp [isWorkerDept, hb, h1, h2, h3, h4]
      | false => simp [isWorkerDept, hb]
    by_cases hex : customExceptions.contains empId = true <;>
      cases hb : startsWithStr d "Sci Prec" <;>
      simp [calculateBonusPercentage, amendedBonusPercentage, hiw, hb, hex]

/-- The 11 fiscal-month slots with only AUG (index 9) set, to 50000:
the timeline of the spec's Scenario B. -/
def onlyAugust : List (Option ℚ) :=
  (List.replicate 11 (none : Option ℚ)).set 9 (some 50000)

/-- C4 counterexample: with only an August salary of 50,000 recorded,
the estimated 12th month is 50,000, not 0 — August itself lies inside
the December-through-August averaging window, so with no other month
the mean is 50,000. -/
theorem C4_counterexample :
    calculateOctSalary onlyAugust = 50000 ∧ (50000 : ℚ) ≠ 0 := by
  constructor
  · have hl : ((((onlyAugust.drop 1).take 9).filterMap id).filter (fun s => 1 < s)) =
        [(50000 : ℚ)] := by rfl
    show (if (50000 : ℚ) < 1 then (0 : ℚ) else _) = 50000
    rw [if_neg (by norm_num)]
    simp only [hl]
    norm_num [jsRound]
  · norm_num

/-- The DEC..AUG slots (indices 1..9) that are present and strictly
greater than 1 — the set the code actually averages. -/
def decToAugAboveOne (ms : List (Option ℚ)) : List ℚ :=
  (((ms.drop 1).take 9).filterMap id).filter (fun s => 1 < s)

/-- C4 amended: when the August slot is absent or below 1, the estimate
is 0; when it is present and at least 1, the estimate is the rounded
mean of the December-through-August salaries strictly greater than 1 —
a window that includes August itself — or 0 when no month qualifies.
In particular an August-only timeline of 50,000 estimates 50,000,
not 0. -/
theorem C4_amended_oct_estimate (ms : List (Option ℚ)) :
    ((ms.get? 9).bind id = none → calculateOctSalary ms = 0) ∧
    (∀ a : ℚ, (ms.get? 9).bind id = some a → a < 1 → calculateOctSalary ms = 0) ∧
    (∀ a : ℚ, (ms.get? 9).bind id = some a → 1 ≤ a →
      calculateOctSalary ms =
        (if decToAugAboveOne ms = [] then 0
         else (jsRound ((decToAugAboveOne ms).sum / ((decToAugAboveOne ms).length : ℚ)) : ℚ))) := by
  refine ⟨fun h => ?_, fun a ha hlt => ?_, fun a ha hge => ?_⟩
  · simp only [calculateOctSalary, h]
  · simp only [calculateOctSalary, ha, if_pos hlt]
  · simp only [calculateOctSalary, ha, if_neg (not_lt.mpr hge)]
    simp only [decToAugAboveOne, List.length_eq_zero]

/-- Witness for C4 at the August-only timeline. -/
theorem C4_amended_oct_estimate_witness :
    calculateOctSalary onlyAugust =
      (if decToAugAboveOne onlyAugust = [] then 0
       else (jsRound ((decToAugAboveOne onlyAugust).sum /
         ((decToAugAboveOne onlyAugust).length : ℚ)) : ℚ)) :=
  (C4_amended_oct_estimate onlyAugust).2.2 50000 rfl (by norm_num)

/-- Two timeline records for the same month (JAN-25) with different
positive salaries. -/
def dupJanuary : List MonthlyData :=
  [{ month := "JAN-25", salary := 100, department := none },
   { month := "JAN-25", salary := 200, department := none }]

/-- C5 counterexample: with two positive JAN-25 records of 100 then 200,
the JAN slot (index 2) holds 200 — the LAST positive record wins, not
the first as claimed. -/
theorem C5_counterexample :
    (extractMonthlySalaries dupJanuary).get? 2 = some (some 200) ∧
      some (some (200 : ℚ)) ≠ some (some (100 : ℚ)) := by
  refine ⟨rfl, by norm_num⟩

/-- One fold step of `extractMonthlySalaries`, exposed for induction. -/
theorem extract_append (md : List MonthlyData) (d : MonthlyData) :
    extractMonthlySalaries (md ++ [d]) =
      (match monthIdx d.month with
       | some index =>
         if d.salary > 0 then (extractMonthlySalaries md).set index (some d.salary)
         else extractMonthlySalaries md
       | none => extractMonthlySalaries md) := by
  unfold extractMonthlySalaries
  rw [List.foldl_append]
  rfl

/-- The slot array always has exactly 11 entries. -/
theorem extract_length (md : List MonthlyData) :
    (extractMonthlySalaries md).length = 11 := by
  induction md using List.reverseRecOn with
  | nil => rfl
  | append_singleton md d ih =>
    rw [extract_append]
    cases hm : monthIdx d.month with
    | none => exact ih
    | some j =>
      by_cases hs : d.salary > 0
      · simp [hs, List.length_set, ih]
      · simp [hs, ih]

/-- C5 amended: each of the 11 fiscal-month slots holds the salary of
the LAST timeline record whose month name maps to that slot with a
positive salary (null when no record matches): on duplicate months the
last non-zero record wins, not the first. -/
theorem C5_amended_last_positive_wins (md : List MonthlyData) (i : Nat) (hi : i < 11) :
    (extractMonthlySalaries md).get? i =
      some ((md.reverse.find?
          (fun d => monthIdx d.month == some i && decide (0 < d.salary))).map
        (fun d => d.salary)) := by
  induction md using List.reverseRecOn with
  | nil =>
    rw [List.reverse_nil]
    show (List.replicate 11 (none : Option ℚ)).get? i = _
    rw [List.get?_eq_getElem?, List.getElem?_replicate, if_pos hi]
    rfl
  | append_singleton md d ih =>
    rw [extract_append]
    have hrev : (md ++ [d]).reverse = d :: md.reverse := by
      simp [List.reverse_append]
    rw [hrev, List.find?_cons]
    cases hm : monthIdx d.month with
    | none => simpa using ih
    | some j =>
      by_cases hs : 0 < d.salary
      · by_cases hij : j = i
        · subst hij
          have h1 : (decide (0 < d.salary)) = true := decide_eq_true hs
          simp only [h1, beq_self_eq_true, Bool.true_and, if_pos hs]
          rw [List.get?_eq_getElem?,
            List.getElem?_set_self (by rw [extract_length]; exact hi)]
          rfl
        · have hji : (some j == some i) = false := by simp [hij]
          simp only [hji, Bool.false_and, if_pos hs]
          rw [List.get?_eq_getElem?, List.getElem?_set_ne hij, ← List.get?_eq_getElem?]
          exact ih
      · have hsd : decide (0 < d.salary) = false := decide_eq_false hs
        simp only [hsd, Bool.and_false, if_neg hs]
        exact ih

/-- Witness for C5 on the duplicate-January timeline at the JAN slot. -/
theorem C5_amended_last_positive_wins_witness :
    (extractMonthlySalaries dupJanuary).get? 2 =
      some ((dupJanuary.reverse.find?
          (fun d => monthIdx d.month == some 2 && decide (0 < d.salary))).map
        (fun d => d.salary)) :=
  C5_amended_last_positive_wins dupJanuary 2 (by norm_num)

/-- C8: the computation is a pure function of its inputs and the run
clock — no hidden randomness — and it depends on the clock only through
each employee's service-month count and service tier: two runs whose
clock readings agree on those (in particular two runs evaluated at one
shared snapshot) produce identical records on identical inputs, every
field included, the resolved bonus percentage among them. -/
theorem C8_run_determinism (nowA nowB : JSDate) (employees : List Employee)
    (dueVoucherMap : String → Option DueVoucher)
    (loanMap percentageMap : String → Option ℚ)
    (h : ∀ e ∈ employees,
      calculateServiceMonths nowA e.doj = calculateServiceMonths nowB e.doj ∧
      serviceTier nowA e.doj = serviceTier nowB e.doj) :
    calculateBonus nowA employees dueVoucherMap loanMap percentageMap =
      calculateBonus nowB employees dueVoucherMap loanMap percentageMap := by
  unfold calculateBonus
  apply List.map_congr_left
  intro e he
  obtain ⟨hsm, hst⟩ := h e (List.mem_of_mem_filter he)
  have hbp : bonusPercentOf nowA percentageMap e = bonusPercentOf nowB percentageMap e := by
    unfold bonusPercentOf calculateBonusPercentage
    rw [hst]
  simp only [calcOne, registerRawOf, gross2Of, afterVRawOf, actualRawOf,
    finalRTGSRawOf, hsm, hbp]

/-- Witness for C8: two clock readings a day apart — same month, same
tier band — give identical output on a concrete staff employee. -/
theorem C8_run_determinism_witness :
    calculateBonus ⟨2025, 9, 1759276800000, true⟩
        [⟨"1", "A", "S", ⟨2020, 0, 1577836800000, true⟩, 0, some [], none⟩]
        (fun _ => none) (fun _ => none) (fun _ => none) =
      calculateBonus ⟨2025, 9, 1759363200000, true⟩
        [⟨"1", "A", "S", ⟨2020, 0, 1577836800000, true⟩, 0, some [], none⟩]
        (fun _ => none) (fun _ => none) (fun _ => none) :=
  C8_run_determinism ⟨2025, 9, 1759276800000, true⟩ ⟨2025, 9, 1759363200000, true⟩
    [⟨"1", "A", "S", ⟨2020, 0, 1577836800000, true⟩, 0, some [], none⟩]
    (fun _ => none) (fun _ => none) (fun _ => none)
    (by
      intro e he
      simp only [List.mem_singleton] at he
      subst he
      exact ⟨by decide, by norm_num [serviceTier, yearsOfService]⟩)

/-- Staff row with ordinary id "123", name "A", zero salary, and
joining-date text "N": sentinel via the date, not the id. -/
def dojSentinelRow : StaffRow :=
  { empId := some "123", dept := some "W", name := some "A", salary := 0,
    dojRaw := some "N", dojParsed := none }

/-- C9 counterexample: a row with joining-date text "N" but ordinary id
"123" is kept and tagged department "N", yet it is aggregated under the
key "123" — not under "N_" + name as the claim states for every
sentinel row. -/
theorem C9_counterexample :
    (parseStaffSheetRows "NOV-24" [dojSentinelRow]).map Prod.fst = ["123"] ∧
    (getEntry (parseStaffSheetRows "NOV-24" [dojSentinelRow]) "123").map
      Employee.department = some "N" ∧
    "123" ≠ "N_" ++ "A" := by
  refine ⟨by decide, by decide, by decide⟩

/-- C9 amended: a sentinel row — joining-date text "N" or id exactly
"N" — whose id and name are present, id neither "0" nor (worker file)
"total", name not "total", is always kept by the normalizer even with a
zero salary, and its department is tagged "N"; but its aggregation key
is "N_" + name only when the id itself is "N" (case-insensitively) — a
date-sentinel row with an ordinary id stays keyed by that id. Holds for
the staff and the worker parser alike. -/
theorem C9_amended_sentinel_kept :
    (∀ (monthKey : String) (pre post : List StaffRow) (row : StaffRow),
      row.empId = some "N" ∨ upperStr (trimStr (row.dojRaw.getD "")) = "N" →
      jsFalsyStr row.empId = false →
      row.empId ≠ some "0" →
      jsFalsyStr row.name = false →
      lowerStr (row.name.getD "") ≠ "total" →
      sentinelKey (row.empId.getD "") (row.name.getD "") ∈
        (parseStaffSheetRows monthKey (pre ++ row :: post)).map Prod.fst ∧
      (getEntry (parseStaffSheetRows monthKey (pre ++ [row]))
          (sentinelKey (row.empId.getD "") (row.name.getD ""))).map
        Employee.department = some "N") ∧
    (∀ (monthKey : String) (pre post : List WorkerRow) (row : WorkerRow),
      row.empId = some "N" ∨ upperStr (trimStr (row.dojRaw.getD "")) = "N" →
      jsFalsyStr row.empId = false →
      row.empId ≠ some "0" →
      jsFalsyStr row.name = false →
      lowerStr (row.name.getD "") ≠ "total" →
      lowerStr (row.empId.getD "") ≠ "total" →
      sentinelKey (row.empId.getD "") (row.name.getD "") ∈
        (parseWorkerSheetRows monthKey (pre ++ row :: post)).map Prod.fst ∧
      (getEntry (parseWorkerSheetRows monthKey (pre ++ [row]))
          (sentinelKey (row.empId.getD "") (row.name.getD ""))).map
        Employee.department = some "N") := by
  constructor
  · intro monthKey pre post row hscope hid hid0 hname hnameT
    have hNV := isNValueOf_of_scope row.empId row.dojRaw hscope
    have hDN := rowDeptIsN_of_scope row.empId row.dojRaw hscope
    have hid0b : (row.empId == some "0") = false := beq_eq_false_iff_ne.mpr hid0
    have hnameTb : (lowerStr (row.name.getD "") == "total") = false :=
      beq_eq_false_iff_ne.mpr hnameT
    have hstep := staffStep_sentinel monthKey (pre.foldl (staffStep monthKey) []) row
      hNV hDN hid hid0b hname hnameTb
    constructor
    · have hne : getEntry (staffStep monthKey (pre.foldl (staffStep monthKey) []) row)
          (sentinelKey (row.empId.getD "") (row.name.getD "")) ≠ none := by
        intro h0
        rw [h0] at hstep
        simp at hstep
      have hmem := (getEntry_ne_none_iff _ _).mp hne
      unfold parseStaffSheetRows
      rw [List.foldl_append, List.foldl_cons]
      exact staffFold_keys_mono monthKey _ post _ hmem
    · unfold parseStaffSheetRows
      rw [List.foldl_append, List.foldl_cons, List.foldl_nil]
      exact hstep
  · intro monthKey pre post row hscope hid hid0 hname hnameT hidT
    have hNV := isNValueOf_of_scope row.empId row.dojRaw hscope
    have hDN := rowDeptIsN_of_scope row.empId row.dojRaw hscope
    have hid0b : (row.empId == some "0") = false := beq_eq_false_iff_ne.mpr hid0
    have hnameTb : (lowerStr (row.name.getD "") == "total") = false :=
      beq_eq_false_iff_ne.mpr hnameT
    have hidTb : (lowerStr (row.empId.getD "") == "total") = false :=
      beq_eq_false_iff_ne.mpr hidT
    have hstep := workerStep_sentinel monthKey (pre.foldl (workerStep monthKey) []) row
      hNV hDN hid hid0b hname hnameTb hidTb
    constructor
    · have hne : getEntry (workerStep monthKey (pre.foldl (workerStep monthKey) []) row)
          (sentinelKey (row.empId.getD "") (row.name.getD "")) ≠ none := by
        intro h0
        rw [h0] at hstep
        simp at hstep
      have hmem := (getEntry_ne_none_iff _ _).mp hne
      unfold parseWorkerSheetRows
      rw [List.foldl_append, List.foldl_cons]
      exact workerFold_keys_mono monthKey _ post _ hmem
    · unfold parseWorkerSheetRows
      rw [List.foldl_append, List.foldl_cons, List.foldl_nil]
      exact hstep

/-- Staff row whose id is itself "N". -/
def nIdRow : StaffRow :=
  { empId := some "N", dept := some "W", name := some "B", salary := 0,
    dojRaw := none, dojParsed := none }

/-- Witness for C9: the id-"N" staff row, alone in its sheet, is kept
under the key "N_" + name with department "N". -/
theorem C9_amended_sentinel_kept_witness :
    sentinelKey (nIdRow.empId.getD "") (nIdRow.name.getD "") ∈
      (parseStaffSheetRows "NOV-24" ([] ++ nIdRow :: [])).map Prod.fst ∧
    (getEntry (parseStaffSheetRows "NOV-24" ([] ++ [nIdRow]))
        (sentinelKey (nIdRow.empId.getD "") (nIdRow.name.getD ""))).map
      Employee.department = some "N" :=
  C9_amended_sentinel_kept.1 "NOV-24" [] [] nIdRow (Or.inl rfl)
    (by decide) (by decide) (by decide) (by decide)

end Bonus
